import Mathlib

/-!
# Verification of the lox-rs tree-walking interpreter

A shallow embedding, in Lean 4, of the `lox-rs` repository (a Rust
tree-walking interpreter for the Lox language) together with theorems
settling the frozen claims about it.

Modelling conventions:
* Rust `f64` number literals are modelled as `ℚ` (no claim under scrutiny
  depends on floating-point rounding, infinities or NaN).
* `HashMap<String, _>` is modelled as an association list whose `insert`
  overwrites the previous binding for a key; `get`/`contains_key` look up the
  most recent insertion, matching `HashMap` observable behaviour.
* `Rc<RefCell<Environment>>` sharing is modelled by a store (list) of
  environments addressed by index (`EnvId`); the interpreter state threads the
  store explicitly.  Mutations performed before an early `?` return in Rust
  persist, so every evaluation function returns the state in the error case
  too.
* Wall-clock time (the `clock` native) is abstracted to a constant `Number`;
  no settled claim calls a native successfully.
* Possibly-diverging recursion (the scanner driver, the recursive-descent
  parser, `while` loops and function calls) is made total with an explicit
  fuel parameter; all concrete runs below use ample fuel.
* Error message strings follow the source but elide the single quotes around
  interpolated lexemes; no claim depends on the exact quoting.
-/

namespace Lox

/-- Token kinds, as used consistently by `lexer.rs`, `parser.rs` and
`interpreter.rs` (`token.rs` in the snapshot is a stale earlier revision whose
`Token` lacks the `lexeme` field every consumer uses; the variant list with
payload-carrying `Number`/`String` below is the one the lexer constructs and
the parser matches on).  The keyword variant for `else` is spelled `Eles` in
the source. -/
inductive TokenType where
  | LeftParen | RightParen | LeftBrace | RightBrace
  | Comma | Dot | Minus | Plus | Semicolon | Slash | Star
  | Bang | BangEqual | Equal | EqualEqual
  | Greater | GreaterEqual | Less | LessEqual
  | Identifier
  | String (literal : String)
  | Number (literal : ℚ)
  | And | Class | Eles | False | Fun | For | If | Nil | Or
  | Print | Return | Super | This | True | Var | While
  | EOF
  deriving DecidableEq, Repr

/-- `Token` as constructed by `Lexer::add_token` (`Token::new(type, lexeme,
line)`): kind, original lexeme text and 1-based line. -/
structure Token where
  type : TokenType
  lexeme : String
  line : Nat
  deriving DecidableEq, Repr

/-- `Token::get_keyword` from `token.rs`: the 16 reserved words. -/
def Token.get_keyword (id : String) : Option TokenType :=
  if id = "and" then some .And
  else if id = "or" then some .Or
  else if id = "false" then some .False
  else if id = "true" then some .True
  else if id = "if" then some .If
  else if id = "else" then some .Eles
  else if id = "for" then some .For
  else if id = "while" then some .While
  else if id = "fun" then some .Fun
  else if id = "return" then some .Return
  else if id = "class" then some .Class
  else if id = "super" then some .Super
  else if id = "this" then some .This
  else if id = "var" then some .Var
  else if id = "nil" then some .Nil
  else if id = "print" then some .Print
  else none

/-- `LexError` from `lexer.rs`. -/
inductive LexError where
  | UnexpectedCharacter (char : Char) (line : Nat)
  | UnterminatedString (char : Char) (line : Nat)
  deriving DecidableEq, Repr

/-- Digit-run consumption in the number arm of `Lexer::scan`: peek, and while
the next character is an ASCII digit, consume it and push it onto `n`. -/
def takeDigits : List Char → String → String × List Char
  | [], acc => (acc, [])
  | c :: rest, acc =>
    if c.isDigit then takeDigits rest (acc.push c) else (acc, c :: rest)

/-- Identifier-run consumption in the identifier arm of `Lexer::scan`:
consume while ASCII alphabetic, ASCII digit or underscore. -/
def takeIdent : List Char → String → String × List Char
  | [], acc => (acc, [])
  | c :: rest, acc =>
    if c.isAlpha || c.isDigit || c = '_' then takeIdent rest (acc.push c)
    else (acc, c :: rest)

/-- The `//` line-comment loop of `Lexer::scan`: consume characters up to and
including the next newline (or end of input).  The source does not increment
the line counter for the newline that terminates a comment. -/
def skipComment : List Char → List Char
  | [] => []
  | '\n' :: rest => rest
  | _ :: rest => skipComment rest

/-- The string-literal loop of `Lexer::scan`: consume until the closing `"`;
embedded newlines bump the line counter and (faithfully to the source) are not
pushed into the literal; end of input yields the unterminated-string error
carrying the current line. -/
def takeStr : List Char → Nat → String → Except Nat (String × List Char × Nat)
  | [], line, _ => .error line
  | '"' :: rest, line, acc => .ok (acc, rest, line)
  | '\n' :: rest, line, acc => takeStr rest (line + 1) acc
  | c :: rest, line, acc => takeStr rest line (acc.push c)

/-- Value of a run of decimal digits. -/
def digitsVal (cs : List Char) : Nat :=
  cs.foldl (fun a c => a * 10 + (c.toNat - 48)) 0

/-- Value of a decimal numeral (digits with at most one interior dot), the
`n.parse::<f64>()` step with `f64` modelled as `ℚ`. -/
def parseNum (s : String) : ℚ :=
  match s.data.span (fun c => c != '.') with
  | (i, []) => (digitsVal i : ℚ)
  | (i, _ :: f) => (digitsVal i : ℚ) + mkRat (digitsVal f) (10 ^ f.length)

/-- The main loop of `Lexer::scan`, one Rust `match` arm per case, in source
order (in particular the special `'o'` arm sits between the digit arm and the
general identifier arm, and so captures every lexeme starting with `o`).
Fuel only bounds the number of loop iterations; each iteration consumes at
least one character, so `source.length + 1` fuel is always sufficient. -/
def scanChars : Nat → List Char → Nat → List Token → Except LexError (List Token)
  | 0, _, line, tokens => .ok (tokens ++ [⟨.EOF, "", line⟩])
  | _ + 1, [], line, tokens => .ok (tokens ++ [⟨.EOF, "", line⟩])
  | fuel + 1, c :: rest, line, tokens =>
    if c = '(' then scanChars fuel rest line (tokens ++ [⟨.LeftParen, "(", line⟩])
    else if c = ')' then scanChars fuel rest line (tokens ++ [⟨.RightParen, ")", line⟩])
    else if c = '{' then scanChars fuel rest line (tokens ++ [⟨.LeftBrace, "\x7b", line⟩])
    else if c = '}' then scanChars fuel rest line (tokens ++ [⟨.RightBrace, "\x7d", line⟩])
    else if c = ',' then scanChars fuel rest line (tokens ++ [⟨.Comma, ",", line⟩])
    else if c = '.' then scanChars fuel rest line (tokens ++ [⟨.Dot, ".", line⟩])
    else if c = '-' then scanChars fuel rest line (tokens ++ [⟨.Minus, "-", line⟩])
    else if c = '+' then scanChars fuel rest line (tokens ++ [⟨.Plus, "+", line⟩])
    else if c = ';' then scanChars fuel rest line (tokens ++ [⟨.Semicolon, ";", line⟩])
    else if c = '*' then scanChars fuel rest line (tokens ++ [⟨.Star, "*", line⟩])
    else if c = '!' then
      match rest with
      | '=' :: rest' => scanChars fuel rest' line (tokens ++ [⟨.BangEqual, "!=", line⟩])
      | _ => scanChars fuel rest line (tokens ++ [⟨.Bang, "!", line⟩])
    else if c = '=' then
      match rest with
      | '=' :: rest' => scanChars fuel rest' line (tokens ++ [⟨.EqualEqual, "==", line⟩])
      | _ => scanChars fuel rest line (tokens ++ [⟨.Equal, "=", line⟩])
    else if c = '<' then
      match rest with
      | '=' :: rest' => scanChars fuel rest' line (tokens ++ [⟨.LessEqual, "<=", line⟩])
      | _ => scanChars fuel rest line (tokens ++ [⟨.Less, "<", line⟩])
    else if c = '>' then
      match rest with
      | '=' :: rest' => scanChars fuel rest' line (tokens ++ [⟨.GreaterEqual, ">=", line⟩])
      | _ => scanChars fuel rest line (tokens ++ [⟨.Greater, ">", line⟩])
    else if c = '/' then
      match rest with
      | '/' :: rest' => scanChars fuel (skipComment rest') line tokens
      | _ => scanChars fuel rest line (tokens ++ [⟨.Slash, "/", line⟩])
    else if c = '"' then
      match takeStr rest line "" with
      | .error line' => .error (.UnterminatedString '"' line')
      | .ok (s, rest', line') =>
        scanChars fuel rest' line' (tokens ++ [⟨.String s, s, line'⟩])
    else if c.isDigit then
      let (n, rest₁) := takeDigits rest (String.singleton c)
      match rest₁ with
      | '.' :: rest₂ =>
        -- the source consumes the dot before checking whether a digit follows
        match rest₂ with
        | d :: _ =>
          if d.isDigit then
            let (n₂, rest₃) := takeDigits rest₂ (n.push '.')
            scanChars fuel rest₃ line (tokens ++ [⟨.Number (parseNum n₂), n₂, line⟩])
          else scanChars fuel rest₂ line (tokens ++ [⟨.Number (parseNum n), n, line⟩])
        | [] => scanChars fuel rest₂ line (tokens ++ [⟨.Number (parseNum n), n, line⟩])
      | _ => scanChars fuel rest₁ line (tokens ++ [⟨.Number (parseNum n), n, line⟩])
    else if c = 'o' then
      match rest with
      | 'r' :: rest' => scanChars fuel rest' line (tokens ++ [⟨.Or, "or", line⟩])
      | _ => scanChars fuel rest line tokens   -- no token is emitted; the o is dropped
    else if c.isAlpha || c = '_' then
      let (ident, rest₁) := takeIdent rest (String.singleton c)
      match Token.get_keyword ident with
      | some t => scanChars fuel rest₁ line (tokens ++ [⟨t, ident, line⟩])
      | none => scanChars fuel rest₁ line (tokens ++ [⟨.Identifier, ident, line⟩])
    else if c = '\n' then scanChars fuel rest (line + 1) tokens
    else if c = ' ' || c = '\r' || c = '\t' then scanChars fuel rest line tokens
    else .error (.UnexpectedCharacter c line)

/-- `Lexer::scan`: run the loop from line 1 with an empty token vector and
terminate the stream with an `EOF` token. -/
def Lexer.scan (source : String) : Except LexError (List Token) :=
  scanChars (source.length + 1) source.data 1 []

/-- `LiteralValue` from `ast.rs` (constructor `Str` stands for the source's
`String` variant). -/
inductive LiteralValue where
  | Boolean (b : Bool)
  | Nil
  | Number (n : ℚ)
  | Str (s : String)
  deriving DecidableEq, Repr

/-- `Expr` as constructed by `parser.rs` and consumed by `interpreter.rs`
(the snapshot's `ast.rs` predates the `Call` variant its consumers use). -/
inductive Expr where
  | Binary (left : Expr) (operator : Token) (right : Expr)
  | Grouping (expression : Expr)
  | Literal (value : LiteralValue)
  | Logical (left : Expr) (operator : Token) (right : Expr)
  | Unary (operator : Token) (right : Expr)
  | Variable (name : Token)
  | Assign (name : Token) (value : Expr)
  | Call (callee : Expr) (paren : Token) (arguments : List Expr)
  deriving Repr

/-- `Stmt` as constructed by `parser.rs` and consumed by `interpreter.rs`
(the snapshot's `ast.rs` predates the `Function`/`Return` variants its
consumers use). -/
inductive Stmt where
  | Block (statements : List Stmt)
  | Expression (expression : Expr)
  | Print (expression : Expr)
  | Var (name : Token) (initializer : Option Expr)
  | Nil
  | If (condition : Expr) (thenBranch : Stmt) (elseBranch : Option Stmt)
  | While (condition : Expr) (body : Stmt)
  | Function (name : Token) (params : List Token) (body : List Stmt)
  | Return (keyword : Token) (value : Option Expr)
  deriving Repr

/-- Identity of an `Rc<RefCell<Environment>>` cell: an index into the store of
all environments allocated so far. -/
abbrev EnvId := Nat

/-- The bodies of native functions.  The source's `Native` variant boxes an
arbitrary host closure; the only one ever constructed is `clock`, whose
wall-clock reading is abstracted to a constant (its value never matters below:
no settled claim reaches a native call). -/
inductive NativeBody where
  | clock
  deriving DecidableEq, Repr

mutual
/-- `Object` from `object.rs`: the runtime value sum (constructor `Str` stands
for the source's `String` variant). -/
inductive Object where
  | Boolean (b : Bool)
  | Nil
  | Number (n : ℚ)
  | Str (s : String)
  | Callable (f : Function)
  deriving Repr

/-- `Function` from `object.rs`.  `closure` is the shared environment cell the
user function captured at definition time. -/
inductive Function where
  | Native (arity : Nat) (body : NativeBody)
  | User (name : Token) (params : List Token) (body : List Stmt) (closure : EnvId)
  deriving Repr
end

/-- Run a native body on the argument vector (`body(arguments)`). -/
def NativeBody.run : NativeBody → List Object → Object
  | .clock, _ => Object.Number 0

/-- `Function::arity`. -/
def Function.arity : Function → Nat
  | .Native a _ => a
  | .User _ params _ _ => params.length

/-- `Object::equals`: `nil` equals only `nil`, like-typed primitives compare
structurally, everything else (callables included) is unequal. -/
def Object.equals : Object → Object → Bool
  | .Nil, .Nil => true
  | _, .Nil => false
  | .Nil, _ => false
  | .Boolean l, .Boolean r => l == r
  | .Number l, .Number r => l == r
  | .Str l, .Str r => l == r
  | _, _ => false

/-- `fmt::Display for Object` (number formatting simplified: an integral
rational prints its numerator, which matches the source for the integral
values appearing below; no settled claim prints a non-integral number). -/
def Object.display : Object → String
  | .Nil => "nil"
  | .Number n => if n.den == 1 then toString n.num else toString n.num ++ "/" ++ toString n.den
  | .Boolean b => if b then "true" else "false"
  | .Str s => s
  | .Callable (.Native _ _) => "<native func>"
  | .Callable (.User name _ _ _) => "<fn " ++ name.lexeme ++ ">"

/-- A `HashMap<String, Object>` value map, as an insertion-ordered association
list: `insert` overwrites, `get` finds the live binding. -/
abbrev ValueMap := List (String × Object)

/-- `HashMap::get`. -/
def mapGet (m : ValueMap) (k : String) : Option Object :=
  (m.find? (fun p => p.1 == k)).map (fun p => p.2)

/-- `HashMap::insert` (replace any previous binding for the key). -/
def mapInsert (m : ValueMap) (k : String) (v : Object) : ValueMap :=
  (k, v) :: m.eraseP (fun p => p.1 == k)

/-- `HashMap::contains_key`. -/
def mapContains (m : ValueMap) (k : String) : Bool :=
  (m.find? (fun p => p.1 == k)).isSome

/-- `Environment` from `environment.rs`: local bindings plus an optional
enclosing cell. -/
structure Environment where
  enclosing : Option EnvId
  values : ValueMap
  deriving Repr

/-- The store of every allocated environment cell; `EnvId` indexes into it. -/
abbrev Store := List Environment

/-- Dereference an environment cell (ids produced by the interpreter are
always in range; out-of-range defaults to an empty root environment). -/
def Store.deref (st : Store) (id : EnvId) : Environment :=
  st.getD id ⟨none, []⟩

/-- `Environment::define` on the cell `id`. -/
def Store.define (st : Store) (id : EnvId) (name : String) (v : Object) : Store :=
  st.set id { st.deref id with values := mapInsert (st.deref id).values name v }

/-- `RuntimeError` from `interpreter.rs` (called `InterpretError` in some
files of the snapshot): type errors, undefined-variable errors and the
`Return` control-flow signal. -/
inductive RuntimeError where
  | TypeError (token : Token) (message : String)
  | UndefinedError (token : Token) (message : String)
  | Return (value : Object)
  deriving Repr

/-- `Environment::get`: read the local map, else recurse into the enclosing
cell, else `UndefinedError`.  The fuel bounds chain length; every chain the
interpreter builds points to strictly earlier cells, so `st.length + 1` fuel
always suffices. -/
def envGet (st : Store) : Nat → EnvId → Token → Except RuntimeError Object
  | 0, _, name =>
    .error (.UndefinedError name ("Undefined variable " ++ name.lexeme ++ "."))
  | fuel + 1, id, name =>
    match mapGet (st.deref id).values name.lexeme with
    | some v => .ok v
    | none =>
      match (st.deref id).enclosing with
      | some p => envGet st fuel p name
      | none =>
        .error (.UndefinedError name ("Undefined variable " ++ name.lexeme ++ "."))

/-- `Environment::assign`: overwrite in the nearest chain cell whose local map
contains the name, else `UndefinedError`. -/
def envAssign (st : Store) : Nat → EnvId → Token → Object → Except RuntimeError Store
  | 0, _, name, _ =>
    .error (.UndefinedError name ("Undefined variable " ++ name.lexeme ++ "."))
  | fuel + 1, id, name, v =>
    if mapContains (st.deref id).values name.lexeme then
      .ok (st.define id name.lexeme v)
    else
      match (st.deref id).enclosing with
      | some p => envAssign st fuel p name v
      | none =>
        .error (.UndefinedError name ("Undefined variable " ++ name.lexeme ++ "."))

/-- The loop body of `Environment::ancestor`: `for i in 0..distance` it
re-reads `self.enclosing` (of the *original* environment — the walked-to cell
is stored in `environment` but never followed), panicking (`expect`) when the
original environment has no enclosing cell.  `.error` models the panic. -/
def ancestorLoop (enclosing : Option EnvId) : Nat → Option EnvId → Except String (Option EnvId)
  | 0, acc => .ok acc
  | n + 1, _ =>
    match enclosing with
    | none => .error "No enclosing environment"
    | some p => ancestorLoop enclosing n (some p)

/-- `Environment::ancestor st id distance`. -/
def Environment.ancestor (st : Store) (id : EnvId) (distance : Nat) : Except String (Option EnvId) :=
  ancestorLoop (st.deref id).enclosing distance none

/-- `Environment::get_at`: read the local map of `ancestor(distance)` (or of
`self` when `ancestor` returns `None`); a missing binding there is a panic
(`expect`), modelled as `.error`. -/
def Environment.get_at (st : Store) (id : EnvId) (distance : Nat) (name : Token) : Except String Object :=
  match Environment.ancestor st id distance with
  | .error e => .error e
  | .ok (some envId) =>
    match mapGet (st.deref envId).values name.lexeme with
    | some v => .ok v
    | none => .error ("Undefined variable " ++ name.lexeme)
  | .ok none =>
    match mapGet (st.deref id).values name.lexeme with
    | some v => .ok v
    | none => .error ("Undefined variable " ++ name.lexeme)

/-- `Environment::assign_at`: insert into the local map of
`ancestor(distance)` (or of `self` when `ancestor` returns `None`). -/
def Environment.assign_at (st : Store) (id : EnvId) (distance : Nat) (name : Token) (v : Object) : Except String Store :=
  match Environment.ancestor st id distance with
  | .error e => .error e
  | .ok (some envId) => .ok (st.define envId name.lexeme v)
  | .ok none => .ok (st.define id name.lexeme v)

/-- The interpreter's mutable state: the store of environment cells, the
`environment` field (current cell), and the lines printed so far (stdout). -/
structure InterpState where
  envs : Store
  environment : EnvId
  output : List String
  deriving Repr

/-- `Interpreter::new` from `interpreter.rs`: a `globals` cell is allocated
and populated with the `clock` native — and then, faithfully to the source,
*discarded*: the `environment` field is set to a second, freshly created empty
environment (the source constructs `Environment::new()` again instead of
using `globals`).  The orphaned `globals` cell is kept at index 0; nothing
points to it. -/
def Interpreter.new : InterpState :=
  let globals : Environment :=
    ⟨none, mapInsert [] "clock" (Object.Callable (Function.Native 0 NativeBody.clock))⟩
  { envs := [globals, ⟨none, []⟩], environment := 1, output := [] }

/-- `Interpreter::is_truthy`: `nil` and `false` are falsy, all else truthy. -/
def is_truthy : Object → Bool
  | .Nil => false
  | .Boolean b => b
  | _ => true

/-- The `number_operand_error` helper. -/
def number_operand_error (operator : Token) : RuntimeError :=
  .TypeError operator "Operand must be a number."

/-- `visit_literal_expr`: literals map directly to values. -/
def litToObject : LiteralValue → Object
  | .Boolean b => .Boolean b
  | .Nil => .Nil
  | .Number n => .Number n
  | .Str s => .Str s

/-- Artifact of the fuel embedding: returned only when fuel runs out.  All
concrete runs below use ample fuel, and theorems about symbolic fuel always
match on `fuel + 1`, so this value is never produced in any settled claim. -/
def fuelErr : RuntimeError := .TypeError ⟨.EOF, "", 0⟩ "fuel exhausted"

/-- Placeholder for the source's `unreachable!` / `unimplemented!` panics. -/
def panicErr (msg : String) : RuntimeError := .TypeError ⟨.EOF, "", 0⟩ msg

/-- The operator dispatch of `visit_binary_expr`, applied after both operands
have been evaluated. -/
def binaryOp (operator : Token) (l r : Object) : Except RuntimeError Object :=
  match operator.type with
  | .Greater =>
    match l, r with
    | .Number ln, .Number rn => .ok (.Boolean (decide (ln > rn)))
    | _, _ => .error (number_operand_error operator)
  | .GreaterEqual =>
    match l, r with
    | .Number ln, .Number rn => .ok (.Boolean (decide (ln ≥ rn)))
    | _, _ => .error (number_operand_error operator)
  | .Less =>
    match l, r with
    | .Number ln, .Number rn => .ok (.Boolean (decide (ln < rn)))
    | _, _ => .error (number_operand_error operator)
  | .LessEqual =>
    match l, r with
    | .Number ln, .Number rn => .ok (.Boolean (decide (ln ≤ rn)))
    | _, _ => .error (number_operand_error operator)
  | .Minus =>
    match l, r with
    | .Number ln, .Number rn => .ok (.Number (ln - rn))
    | _, _ => .error (number_operand_error operator)
  | .Slash =>
    match l, r with
    | .Number ln, .Number rn => .ok (.Number (ln / rn))
    | _, _ => .error (number_operand_error operator)
  | .Star =>
    match l, r with
    | .Number ln, .Number rn => .ok (.Number (ln * rn))
    | _, _ => .error (number_operand_error operator)
  | .Plus =>
    match l, r with
    | .Number ln, .Number rn => .ok (.Number (ln + rn))
    | .Str ls, .Str rs => .ok (.Str (ls ++ rs))
    | _, _ => .error (.TypeError operator "Operands must be two numbers or two strings.")
  | .BangEqual => .ok (.Boolean (! l.equals r))
  | .EqualEqual => .ok (.Boolean (l.equals r))
  | _ => .error (panicErr "unreachable")

mutual

/-- `Interpreter::evaluate` (the `expr::Visitor` implementation of
`interpreter.rs`).  The mutated interpreter state is returned on the error
path too, because Rust's `?` keeps mutations performed before it. -/
def evaluate : Nat → InterpState → Expr → InterpState × Except RuntimeError Object
  | 0, s, _ => (s, .error fuelErr)
  | fuel + 1, s, e =>
    match e with
    | .Literal v => (s, .ok (litToObject v))
    | .Grouping inner => evaluate fuel s inner
    | .Unary operator right =>
      match evaluate fuel s right with
      | (s₁, .error err) => (s₁, .error err)
      | (s₁, .ok rv) =>
        match operator.type with
        | .Minus =>
          match rv with
          | .Number n => (s₁, .ok (.Number (-n)))
          | _ => (s₁, .error (number_operand_error operator))
        | .Bang => (s₁, .ok (.Boolean (! is_truthy rv)))
        | _ => (s₁, .error (panicErr "unreachable"))
    | .Binary left operator right =>
      match evaluate fuel s left with
      | (s₁, .error err) => (s₁, .error err)
      | (s₁, .ok lv) =>
        match evaluate fuel s₁ right with
        | (s₂, .error err) => (s₂, .error err)
        | (s₂, .ok rv) => (s₂, binaryOp operator lv rv)
    | .Variable name => (s, envGet s.envs (s.envs.length + 1) s.environment name)
    | .Assign name value =>
      match evaluate fuel s value with
      | (s₁, .error err) => (s₁, .error err)
      | (s₁, .ok v) =>
        match envAssign s₁.envs (s₁.envs.length + 1) s₁.environment name v with
        | .ok st => ({ s₁ with envs := st }, .ok v)
        | .error err => (s₁, .error err)
    | .Logical left operator right =>
      match evaluate fuel s left with
      | (s₁, .error err) => (s₁, .error err)
      | (s₁, .ok lv) =>
        if operator.type = .Or ∧ is_truthy lv then (s₁, .ok lv)
        else if operator.type = .And ∧ ¬ is_truthy lv then (s₁, .ok lv)
        else evaluate fuel s₁ right
    | .Call callee paren arguments =>
      match evaluate fuel s callee with
      | (s₁, .error err) => (s₁, .error err)
      | (s₁, .ok calleeValue) =>
        match evalArgs fuel s₁ arguments with
        | (s₂, .error err) => (s₂, .error err)
        | (s₂, .ok args) =>
          match calleeValue with
          | .Callable function =>
            if args.length ≠ function.arity then
              (s₂, .error (.TypeError paren
                ("Expected " ++ toString function.arity ++ " arguments but got "
                  ++ toString args.length ++ ".")))
            else callFunction fuel s₂ function args
          | _ => (s₂, .error (.TypeError paren "Can only call functions and classes."))
termination_by structural fuel _ _ => fuel

/-- The `arguments.map(evaluate).collect::<Result<Vec<_>>>()` step of
`visit_call_expr`: left to right, stopping at the first error. -/
def evalArgs : Nat → InterpState → List Expr → InterpState × Except RuntimeError (List Object)
  | _, s, [] => (s, .ok [])
  | 0, s, _ :: _ => (s, .error fuelErr)
  | fuel + 1, s, e :: rest =>
    match evaluate fuel s e with
    | (s₁, .error err) => (s₁, .error err)
    | (s₁, .ok v) =>
      match evalArgs fuel s₁ rest with
      | (s₂, .error err) => (s₂, .error err)
      | (s₂, .ok vs) => (s₂, .ok (v :: vs))
termination_by structural fuel _ _ => fuel

/-- `Function::call` from `object.rs`: natives run their host body; user
functions run their body in a fresh child of the captured closure with the
parameters bound, converting a `Return` signal into the call's value. -/
def callFunction : Nat → InterpState → Function → List Object → InterpState × Except RuntimeError Object
  | _, s, .Native _ body, args => (s, .ok (body.run args))
  | 0, s, .User _ _ _ _, _ => (s, .error fuelErr)
  | fuel + 1, s, .User _ params body closure, args =>
    let locals : ValueMap :=
      (params.zip args).foldl (fun m pa => mapInsert m pa.1.lexeme pa.2) []
    let newId := s.envs.length
    match executeBlock fuel { s with envs := s.envs ++ [⟨some closure, locals⟩] } body newId with
    | (s₂, .error (.Return v)) => (s₂, .ok v)
    | (s₂, .error err) => (s₂, .error err)
    | (s₂, .ok _) => (s₂, .ok .Nil)
termination_by structural fuel _ _ => fuel

/-- `Interpreter::execute` (the `stmt::Visitor` implementation). -/
def execute : Nat → InterpState → Stmt → InterpState × Except RuntimeError Unit
  | 0, s, _ => (s, .error fuelErr)
  | fuel + 1, s, stmt =>
    match stmt with
    | .Block statements =>
      -- visit_block_stmt: Environment::from(&self.environment), then execute_block
      let newId := s.envs.length
      executeBlock fuel { s with envs := s.envs ++ [⟨some s.environment, []⟩] } statements newId
    | .Expression expression =>
      match evaluate fuel s expression with
      | (s₁, .error err) => (s₁, .error err)
      | (s₁, .ok _) => (s₁, .ok ())
    | .Print expression =>
      match evaluate fuel s expression with
      | (s₁, .error err) => (s₁, .error err)
      | (s₁, .ok v) => ({ s₁ with output := s₁.output ++ [v.display] }, .ok ())
    | .Var name initializer =>
      match (match initializer with
             | some init => evaluate fuel s init
             | none => (s, .ok .Nil)) with
      | (s₁, .error err) => (s₁, .error err)
      | (s₁, .ok v) =>
        ({ s₁ with envs := s₁.envs.define s₁.environment name.lexeme v }, .ok ())
    | .Nil => (s, .error (panicErr "unimplemented"))
    | .If condition thenBranch elseBranch =>
      match evaluate fuel s condition with
      | (s₁, .error err) => (s₁, .error err)
      | (s₁, .ok c) =>
        if is_truthy c then execute fuel s₁ thenBranch
        else
          match elseBranch with
          | some eb => execute fuel s₁ eb
          | none => (s₁, .ok ())
    | .While condition body => execWhile fuel s condition body
    | .Function name params body =>
      let function := Function.User name params body s.environment
      ({ s with envs := s.envs.define s.environment name.lexeme (.Callable function) }, .ok ())
    | .Return _ value =>
      match (match value with
             | some v => evaluate fuel s v
             | none => (s, .ok .Nil)) with
      | (s₁, .error err) => (s₁, .error err)
      | (s₁, .ok v) => (s₁, .error (.Return v))
termination_by structural fuel _ _ => fuel

/-- `Interpreter::execute_block`: remember the current environment, switch to
`env`, run the statements, and restore the previous environment — but, being
faithful to the source's `self.execute(stmt)?`, *only on the success path*:
an error (including a `Return` signal) propagates without restoring. -/
def executeBlock : Nat → InterpState → List Stmt → EnvId → InterpState × Except RuntimeError Unit
  | 0, s, _, _ => (s, .error fuelErr)
  | fuel + 1, s, statements, env =>
    let previous := s.environment
    match executeSeq fuel { s with environment := env } statements with
    | (s₁, .ok _) => ({ s₁ with environment := previous }, .ok ())
    | (s₁, .error err) => (s₁, .error err)
termination_by structural fuel _ _ => fuel

/-- Sequential execution of a statement list with `?` (the loop bodies of
`interpret` and `execute_block`). -/
def executeSeq : Nat → InterpState → List Stmt → InterpState × Except RuntimeError Unit
  | _, s, [] => (s, .ok ())
  | 0, s, _ :: _ => (s, .error fuelErr)
  | fuel + 1, s, stmt :: rest =>
    match execute fuel s stmt with
    | (s₁, .error err) => (s₁, .error err)
    | (s₁, .ok _) => executeSeq fuel s₁ rest
termination_by structural fuel _ _ => fuel

/-- `visit_while_stmt`: evaluate the condition, and while truthy execute the
body and re-evaluate. -/
def execWhile : Nat → InterpState → Expr → Stmt → InterpState × Except RuntimeError Unit
  | 0, s, _, _ => (s, .error fuelErr)
  | fuel + 1, s, condition, body =>
    match evaluate fuel s condition with
    | (s₁, .error err) => (s₁, .error err)
    | (s₁, .ok v) =>
      if is_truthy v then
        match execute fuel s₁ body with
        | (s₂, .error err) => (s₂, .error err)
        | (s₂, .ok _) => execWhile fuel s₂ condition body
      else (s₁, .ok ())
termination_by structural fuel _ _ => fuel

end

/-- `Interpreter::interpret`: execute the top-level statements in order,
stopping at the first error. -/
def interpret (fuel : Nat) (s : InterpState) (statements : List Stmt) :
    InterpState × Except RuntimeError Unit :=
  executeSeq fuel s statements

/-- The source text of the spec's S4 program. -/
def s4Source : String :=
  "var a = \"global\";\n\x7b\n  fun showA() \x7b print a; \x7d\n  showA();\n  var a = \"block\";\n  showA();\n\x7d\n"

/-- The statement list the parser produces for the spec's S4 program:
`var a = "global"; { fun showA() { print a; } showA(); var a = "block";
showA(); }`. -/
def s4Program : List Stmt :=
  [ .Var ⟨.Identifier, "a", 1⟩ (some (.Literal (.Str "global"))),
    .Block
      [ .Function ⟨.Identifier, "showA", 3⟩ [] [.Print (.Variable ⟨.Identifier, "a", 3⟩)],
        .Expression (.Call (.Variable ⟨.Identifier, "showA", 4⟩) ⟨.RightParen, ")", 4⟩ []),
        .Var ⟨.Identifier, "a", 5⟩ (some (.Literal (.Str "block"))),
        .Expression (.Call (.Variable ⟨.Identifier, "showA", 6⟩) ⟨.RightParen, ")", 6⟩ []) ] ]

/-- `ParseError` from `parser.rs`. -/
inductive ParseError where
  | UnexpectedToken (token : Token) (message : String)
  | InvalidAssignment (token : Token) (message : String)
  deriving DecidableEq, Repr

namespace Parser

/-- Artifact of the fuel embedding of the recursive-descent parser; never
reached with ample fuel. -/
def parseFuelErr : ParseError := .UnexpectedToken ⟨.EOF, "", 0⟩ "fuel exhausted"

/-- `Parser::peek` (the token stream always ends in `EOF`; out of range
defaults to an `EOF` token, standing for the source's panic). -/
def peek (tokens : List Token) (current : Nat) : Token :=
  tokens.getD current ⟨.EOF, "", 0⟩

/-- `Parser::previous`. -/
def previous (tokens : List Token) (current : Nat) : Token :=
  tokens.getD (current - 1) ⟨.EOF, "", 0⟩

/-- `Parser::is_at_end`. -/
def is_at_end (tokens : List Token) (current : Nat) : Bool :=
  decide ((peek tokens current).type = .EOF)

/-- `Parser::check`. -/
def check (tokens : List Token) (current : Nat) (t : TokenType) : Bool :=
  if is_at_end tokens current then false else decide ((peek tokens current).type = t)

/-- `Parser::advance` (index part; the returned token is `previous` of the
new index). -/
def advance (tokens : List Token) (current : Nat) : Nat :=
  if is_at_end tokens current then current else current + 1

/-- The `matche_types!` macro: does some listed kind match the next token? -/
def matchTypes (tokens : List Token) (current : Nat) (ts : List TokenType) : Bool :=
  ts.any (check tokens current)

/-- `Parser::consume`. -/
def consume (tokens : List Token) (current : Nat) (t : TokenType) (message : String) :
    Except ParseError (Token × Nat) :=
  if check tokens current t then
    let c := advance tokens current
    .ok (previous tokens c, c)
  else .error (.UnexpectedToken (peek tokens current) message)

mutual

/-- `Parser::expression`. -/
def expression (tokens : List Token) : Nat → Nat → Except ParseError (Expr × Nat)
  | 0, _ => .error parseFuelErr
  | fuel + 1, current => assignment tokens fuel current
termination_by structural fuel _ => fuel

/-- `Parser::assignment`. -/
def assignment (tokens : List Token) : Nat → Nat → Except ParseError (Expr × Nat)
  | 0, _ => .error parseFuelErr
  | fuel + 1, current => do
    let (expr, c₁) ← or tokens fuel current
    if matchTypes tokens c₁ [.Equal] then
      let c₂ := advance tokens c₁
      let equals := previous tokens c₂
      let (value, c₃) ← assignment tokens fuel c₂
      match expr with
      | .Variable name => .ok (.Assign name value, c₃)
      | _ => .error (.InvalidAssignment equals "Invalid assignment target.")
    else .ok (expr, c₁)
termination_by structural fuel _ => fuel

/-- `Parser::or` — note, faithfully to the source, the right operand of `or`
is parsed with `equality`, not with `and`. -/
def or (tokens : List Token) : Nat → Nat → Except ParseError (Expr × Nat)
  | 0, _ => .error parseFuelErr
  | fuel + 1, current => do
    let (expr, c₁) ← and tokens fuel current
    orLoop tokens fuel expr c₁
termination_by structural fuel _ => fuel

/-- The `while matche_types!(Or)` loop of `Parser::or`. -/
def orLoop (tokens : List Token) : Nat → Expr → Nat → Except ParseError (Expr × Nat)
  | 0, _, _ => .error parseFuelErr
  | fuel + 1, expr, current =>
    if matchTypes tokens current [.Or] then do
      let c₁ := advance tokens current
      let operator := previous tokens c₁
      let (right, c₂) ← equality tokens fuel c₁
      orLoop tokens fuel (.Logical expr operator right) c₂
    else .ok (expr, current)
termination_by structural fuel _ _ => fuel

/-- `Parser::and` (both the first operand and each right operand are parsed
with `equality`). -/
def and (tokens : List Token) : Nat → Nat → Except ParseError (Expr × Nat)
  | 0, _ => .error parseFuelErr
  | fuel + 1, current => do
    let (expr, c₁) ← equality tokens fuel current
    andLoop tokens fuel expr c₁
termination_by structural fuel _ => fuel

/-- The `while matche_types!(And)` loop of `Parser::and`. -/
def andLoop (tokens : List Token) : Nat → Expr → Nat → Except ParseError (Expr × Nat)
  | 0, _, _ => .error parseFuelErr
  | fuel + 1, expr, current =>
    if matchTypes tokens current [.And] then do
      let c₁ := advance tokens current
      let operator := previous tokens c₁
      let (right, c₂) ← equality tokens fuel c₁
      andLoop tokens fuel (.Logical expr operator right) c₂
    else .ok (expr, current)
termination_by structural fuel _ _ => fuel

/-- `Parser::equality`. -/
def equality (tokens : List Token) : Nat → Nat → Except ParseError (Expr × Nat)
  | 0, _ => .error parseFuelErr
  | fuel + 1, current => do
    let (expr, c₁) ← comparison tokens fuel current
    equalityLoop tokens fuel expr c₁
termination_by structural fuel _ => fuel

/-- The `!=`/`==` loop of `Parser::equality`. -/
def equalityLoop (tokens : List Token) : Nat → Expr → Nat → Except ParseError (Expr × Nat)
  | 0, _, _ => .error parseFuelErr
  | fuel + 1, expr, current =>
    if matchTypes tokens current [.BangEqual, .EqualEqual] then do
      let c₁ := advance tokens current
      let operator := previous tokens c₁
      let (right, c₂) ← comparison tokens fuel c₁
      equalityLoop tokens fuel (.Binary expr operator right) c₂
    else .ok (expr, current)
termination_by structural fuel _ _ => fuel

/-- `Parser::comparison`. -/
def comparison (tokens : List Token) : Nat → Nat → Except ParseError (Expr × Nat)
  | 0, _ => .error parseFuelErr
  | fuel + 1, current => do
    let (expr, c₁) ← term tokens fuel current
    comparisonLoop tokens fuel expr c₁
termination_by structural fuel _ => fuel

/-- The comparison-operator loop of `Parser::comparison`. -/
def comparisonLoop (tokens : List Token) : Nat → Expr → Nat → Except ParseError (Expr × Nat)
  | 0, _, _ => .error parseFuelErr
  | fuel + 1, expr, current =>
    if matchTypes tokens current [.Greater, .GreaterEqual, .Less, .LessEqual] then do
      let c₁ := advance tokens current
      let operator := previous tokens c₁
      let (right, c₂) ← term tokens fuel c₁
      comparisonLoop tokens fuel (.Binary expr operator right) c₂
    else .ok (expr, current)
termination_by structural fuel _ _ => fuel

/-- `Parser::term`. -/
def term (tokens : List Token) : Nat → Nat → Except ParseError (Expr × Nat)
  | 0, _ => .error parseFuelErr
  | fuel + 1, current => do
    let (expr, c₁) ← factor tokens fuel current
    termLoop tokens fuel expr c₁
termination_by structural fuel _ => fuel

/-- The `+`/`-` loop of `Parser::term`. -/
def termLoop (tokens : List Token) : Nat → Expr → Nat → Except ParseError (Expr × Nat)
  | 0, _, _ => .error parseFuelErr
  | fuel + 1, expr, current =>
    if matchTypes tokens current [.Plus, .Minus] then do
      let c₁ := advance tokens current
      let operator := previous tokens c₁
      let (right, c₂) ← factor tokens fuel c₁
      termLoop tokens fuel (.Binary expr operator right) c₂
    else .ok (expr, current)
termination_by structural fuel _ _ => fuel

/-- `Parser::factor` (faithfully to the source, each loop iteration parses
its right operand with `factor` itself). -/
def factor (tokens : List Token) : Nat → Nat → Except ParseError (Expr × Nat)
  | 0, _ => .error parseFuelErr
  | fuel + 1, current => do
    let (expr, c₁) ← unary tokens fuel current
    factorLoop tokens fuel expr c₁
termination_by structural fuel _ => fuel

/-- The `/`/`*` loop of `Parser::factor`. -/
def factorLoop (tokens : List Token) : Nat → Expr → Nat → Except ParseError (Expr × Nat)
  | 0, _, _ => .error parseFuelErr
  | fuel + 1, expr, current =>
    if matchTypes tokens current [.Slash, .Star] then do
      let c₁ := advance tokens current
      let operator := previous tokens c₁
      let (right, c₂) ← factor tokens fuel c₁
      factorLoop tokens fuel (.Binary expr operator right) c₂
    else .ok (expr, current)
termination_by structural fuel _ _ => fuel

/-- `Parser::unary`. -/
def unary (tokens : List Token) : Nat → Nat → Except ParseError (Expr × Nat)
  | 0, _ => .error parseFuelErr
  | fuel + 1, current =>
    if matchTypes tokens current [.Bang, .Minus] then do
      let c₁ := advance tokens current
      let operator := previous tokens c₁
      let (right, c₂) ← unary tokens fuel c₁
      .ok (.Unary operator right, c₂)
    else call tokens fuel current
termination_by structural fuel _ => fuel

/-- `Parser::call`. -/
def call (tokens : List Token) : Nat → Nat → Except ParseError (Expr × Nat)
  | 0, _ => .error parseFuelErr
  | fuel + 1, current => do
    let (expr, c₁) ← primary tokens fuel current
    callLoop tokens fuel expr c₁
termination_by structural fuel _ => fuel

/-- The `while matche_types!(LeftParen)` loop of `Parser::call`. -/
def callLoop (tokens : List Token) : Nat → Expr → Nat → Except ParseError (Expr × Nat)
  | 0, _, _ => .error parseFuelErr
  | fuel + 1, expr, current =>
    if matchTypes tokens current [.LeftParen] then do
      let c₁ := advance tokens current
      let (expr', c₂) ← finish_call tokens fuel expr c₁
      callLoop tokens fuel expr' c₂
    else .ok (expr, current)
termination_by structural fuel _ _ => fuel

/-- `Parser::finish_call`. -/
def finish_call (tokens : List Token) : Nat → Expr → Nat → Except ParseError (Expr × Nat)
  | 0, _, _ => .error parseFuelErr
  | fuel + 1, callee, current => do
    let (arguments, c₁) ←
      if check tokens current .RightParen then .ok ([], current)
      else argsLoop tokens fuel current []
    let (paren, c₂) ← consume tokens c₁ .RightParen "Expect ) after arguments."
    .ok (.Call callee paren arguments, c₂)
termination_by structural fuel _ _ => fuel

/-- The comma-separated argument loop of `Parser::finish_call`. -/
def argsLoop (tokens : List Token) : Nat → Nat → List Expr → Except ParseError (List Expr × Nat)
  | 0, _, _ => .error parseFuelErr
  | fuel + 1, current, acc => do
    let (arg, c₁) ← expression tokens fuel current
    if matchTypes tokens c₁ [.Comma] then
      argsLoop tokens fuel (advance tokens c₁) (acc ++ [arg])
    else .ok (acc ++ [arg], c₁)
termination_by structural fuel _ _ => fuel

/-- `Parser::primary`. -/
def primary (tokens : List Token) : Nat → Nat → Except ParseError (Expr × Nat)
  | 0, _ => .error parseFuelErr
  | fuel + 1, current =>
    match (peek tokens current).type with
    | .False => .ok (.Literal (.Boolean false), advance tokens current)
    | .True => .ok (.Literal (.Boolean true), advance tokens current)
    | .Nil => .ok (.Literal .Nil, advance tokens current)
    | .String literal => .ok (.Literal (.Str literal), advance tokens current)
    | .Number literal => .ok (.Literal (.Number literal), advance tokens current)
    | .LeftParen => do
      let c₁ := advance tokens current
      let (expr, c₂) ← expression tokens fuel c₁
      let (_, c₃) ← consume tokens c₂ .RightParen "Expect ) after expression."
      .ok (.Grouping expr, c₃)
    | .Identifier =>
      let c₁ := advance tokens current
      .ok (.Variable (previous tokens c₁), c₁)
    | _ =>
      let c₁ := advance tokens current
      .error (.UnexpectedToken (previous tokens c₁) "Expect expression.")
termination_by structural fuel _ => fuel

end

mutual

/-- `Parser::declaration` (panic-mode synchronisation is commented out in the
source, so any error propagates). -/
def declaration (tokens : List Token) : Nat → Nat → Except ParseError (Stmt × Nat)
  | 0, _ => .error parseFuelErr
  | fuel + 1, current =>
    if matchTypes tokens current [.Fun] then
      function tokens fuel (advance tokens current) "function"
    else if matchTypes tokens current [.Var] then
      var_declaration tokens fuel (advance tokens current)
    else statement tokens fuel current
termination_by structural fuel _ => fuel

/-- `Parser::function`. -/
def function (tokens : List Token) : Nat → Nat → String → Except ParseError (Stmt × Nat)
  | 0, _, _ => .error parseFuelErr
  | fuel + 1, current, kind => do
    let (name, c₁) ← consume tokens current .Identifier ("Expect " ++ kind ++ " name.")
    let (_, c₂) ← consume tokens c₁ .LeftParen ("Expect ( after " ++ kind ++ " name.")
    let (params, c₃) ←
      if check tokens c₂ .RightParen then .ok (([] : List Token), c₂)
      else paramsLoop tokens fuel c₂ []
    let (_, c₄) ← consume tokens c₃ .RightParen "Expect ) after parameters."
    let (_, c₅) ← consume tokens c₄ .LeftBrace ("Expect \x7b before " ++ kind ++ " body.")
    let (body, c₆) ← block tokens fuel c₅
    .ok (.Function name params body, c₆)
termination_by structural fuel _ _ => fuel

/-- The comma-separated parameter loop of `Parser::function`. -/
def paramsLoop (tokens : List Token) : Nat → Nat → List Token → Except ParseError (List Token × Nat)
  | 0, _, _ => .error parseFuelErr
  | fuel + 1, current, acc => do
    let (p, c₁) ← consume tokens current .Identifier "Expect parameter name."
    if matchTypes tokens c₁ [.Comma] then
      paramsLoop tokens fuel (advance tokens c₁) (acc ++ [p])
    else .ok (acc ++ [p], c₁)
termination_by structural fuel _ _ => fuel

/-- `Parser::var_declaration`. -/
def var_declaration (tokens : List Token) : Nat → Nat → Except ParseError (Stmt × Nat)
  | 0, _ => .error parseFuelErr
  | fuel + 1, current => do
    let (name, c₁) ← consume tokens current .Identifier "Expect variable name."
    let (initializer, c₂) ←
      if matchTypes tokens c₁ [.Equal] then do
        let (e, c) ← expression tokens fuel (advance tokens c₁)
        .ok (some e, c)
      else .ok ((none : Option Expr), c₁)
    let (_, c₃) ← consume tokens c₂ .Semicolon "Expect ; after variable declaration."
    .ok (.Var name initializer, c₃)

/-- `Parser::statement` (dispatch in source order). -/
def statement (tokens : List Token) : Nat → Nat → Except ParseError (Stmt × Nat)
  | 0, _ => .error parseFuelErr
  | fuel + 1, current =>
    if matchTypes tokens current [.Return] then
      return_statement tokens fuel (advance tokens current)
    else if matchTypes tokens current [.For] then
      for_statement tokens fuel (advance tokens current)
    else if matchTypes tokens current [.While] then
      while_statement tokens fuel (advance tokens current)
    else if matchTypes tokens current [.If] then
      if_statement tokens fuel (advance tokens current)
    else if matchTypes tokens current [.Print] then
      print_statement tokens fuel (advance tokens current)
    else if matchTypes tokens current [.LeftBrace] then do
      let (statements, c₁) ← block tokens fuel (advance tokens current)
      .ok (.Block statements, c₁)
    else expression_statement tokens fuel current
termination_by structural fuel _ => fuel

/-- `Parser::return_statement`. -/
def return_statement (tokens : List Token) : Nat → Nat → Except ParseError (Stmt × Nat)
  | 0, _ => .error parseFuelErr
  | fuel + 1, current => do
    let keyword := previous tokens current
    let (value, c₁) ←
      if ! check tokens current .Semicolon then do
        let (e, c) ← expression tokens fuel current
        .ok (some e, c)
      else .ok ((none : Option Expr), current)
    let (_, c₂) ← consume tokens c₁ .Semicolon "Expect ; after return value."
    .ok (.Return keyword value, c₂)

/-- `Parser::for_statement`, including the desugaring into `While` and
`Block`. -/
def for_statement (tokens : List Token) : Nat → Nat → Except ParseError (Stmt × Nat)
  | 0, _ => .error parseFuelErr
  | fuel + 1, current => do
    let (_, c₁) ← consume tokens current .LeftParen "Expect ( after for."
    let (initializer, c₂) ←
      if matchTypes tokens c₁ [.Semicolon] then .ok ((none : Option Stmt), advance tokens c₁)
      else if matchTypes tokens c₁ [.Var] then do
        let (st, c) ← var_declaration tokens fuel (advance tokens c₁)
        .ok (some st, c)
      else do
        let (st, c) ← expression_statement tokens fuel c₁
        .ok (some st, c)
    let (condition, c₃) ←
      if ! check tokens c₂ .Semicolon then expression tokens fuel c₂
      else .ok (Expr.Literal (.Boolean true), c₂)
    let (_, c₄) ← consume tokens c₃ .Semicolon "Expect ; after loop condition."
    let (increment, c₅) ←
      if ! check tokens c₄ .RightParen then do
        let (e, c) ← expression tokens fuel c₄
        .ok (some e, c)
      else .ok ((none : Option Expr), c₄)
    let (_, c₆) ← consume tokens c₅ .RightParen "Expect ) after for clauses."
    let (body₀, c₇) ← statement tokens fuel c₆
    let body₁ :=
      match increment with
      | some inc => Stmt.Block [body₀, .Expression inc]
      | none => body₀
    let body₂ := Stmt.While condition body₁
    let body₃ :=
      match initializer with
      | some init => Stmt.Block [init, body₂]
      | none => body₂
    .ok (body₃, c₇)
termination_by structural fuel _ => fuel

/-- `Parser::while_statement`. -/
def while_statement (tokens : List Token) : Nat → Nat → Except ParseError (Stmt × Nat)
  | 0, _ => .error parseFuelErr
  | fuel + 1, current => do
    let (_, c₁) ← consume tokens current .LeftParen "Expect ( after while."
    let (condition, c₂) ← expression tokens fuel c₁
    let (_, c₃) ← consume tokens c₂ .RightParen "Expect ) after condition."
    let (body, c₄) ← statement tokens fuel c₃
    .ok (.While condition body, c₄)
termination_by structural fuel _ => fuel

/-- `Parser::if_statement` (the `else` keyword variant is spelled `Eles`). -/
def if_statement (tokens : List Token) : Nat → Nat → Except ParseError (Stmt × Nat)
  | 0, _ => .error parseFuelErr
  | fuel + 1, current => do
    let (_, c₁) ← consume tokens current .LeftParen "Expect ( after if."
    let (condition, c₂) ← expression tokens fuel c₁
    let (_, c₃) ← consume tokens c₂ .RightParen "Expect ) after if condition."
    let (thenBranch, c₄) ← statement tokens fuel c₃
    let (elseBranch, c₅) ←
      if matchTypes tokens c₄ [.Eles] then do
        let (st, c) ← statement tokens fuel (advance tokens c₄)
        .ok (some st, c)
      else .ok ((none : Option Stmt), c₄)
    .ok (.If condition thenBranch elseBranch, c₅)
termination_by structural fuel _ => fuel

/-- `Parser::print_statement`. -/
def print_statement (tokens : List Token) : Nat → Nat → Except ParseError (Stmt × Nat)
  | 0, _ => .error parseFuelErr
  | fuel + 1, current => do
    let (value, c₁) ← expression tokens fuel current
    let (_, c₂) ← consume tokens c₁ .Semicolon "Expect ; after value."
    .ok (.Print value, c₂)

/-- `Parser::block` (returns the inner statement list). -/
def block (tokens : List Token) : Nat → Nat → Except ParseError (List Stmt × Nat)
  | 0, _ => .error parseFuelErr
  | fuel + 1, current => blockLoop tokens fuel current []
termination_by structural fuel _ => fuel

/-- The `while !check(RightBrace)` loop of `Parser::block`, ending with the
closing-brace consume. -/
def blockLoop (tokens : List Token) : Nat → Nat → List Stmt → Except ParseError (List Stmt × Nat)
  | 0, _, _ => .error parseFuelErr
  | fuel + 1, current, acc =>
    if ! check tokens current .RightBrace then do
      let (st, c₁) ← declaration tokens fuel current
      blockLoop tokens fuel c₁ (acc ++ [st])
    else do
      let (_, c₁) ← consume tokens current .RightBrace "Expect \x7d after block."
      .ok (acc, c₁)
termination_by structural fuel _ _ => fuel

/-- `Parser::expression_statement`. -/
def expression_statement (tokens : List Token) : Nat → Nat → Except ParseError (Stmt × Nat)
  | 0, _ => .error parseFuelErr
  | fuel + 1, current => do
    let (value, c₁) ← expression tokens fuel current
    let (_, c₂) ← consume tokens c₁ .Semicolon "Expect ; after value."
    .ok (.Expression value, c₂)

end

/-- The `while !is_at_end` loop of `Parser::parse`. -/
def parseLoop (tokens : List Token) : Nat → Nat → List Stmt → Except ParseError (List Stmt)
  | 0, _, _ => .error parseFuelErr
  | fuel + 1, current, acc =>
    if ! is_at_end tokens current then do
      let (st, c₁) ← declaration tokens fuel current
      parseLoop tokens fuel c₁ (acc ++ [st])
    else .ok acc
termination_by structural fuel _ _ => fuel

/-- `Parser::parse`: repeatedly parse declarations until `EOF`. -/
def parse (fuel : Nat) (tokens : List Token) : Except ParseError (List Stmt) :=
  parseLoop tokens fuel 0 []

end Parser

/-- A resolver scope from `resolver.rs`: `HashMap<String, bool>` (the
declared/defined bit), as an association list. -/
abbrev Scope := List (String × Bool)

/-- `HashMap::contains_key` on a scope. -/
def scopeContains (sc : Scope) (k : String) : Bool :=
  (sc.find? (fun p => p.1 == k)).isSome

/-- The resolver side table: variable-reference identity to scope distance.
The source identifies a reference by its token (lexeme and line). -/
abbrev SideTable := List ((String × Nat) × Nat)

/-- Insert into the side table, overwriting any previous entry for the key. -/
def sideInsert (t : SideTable) (k : String × Nat) (d : Nat) : SideTable :=
  (k, d) :: t.eraseP (fun p => p.1 == k)

/-- Look a key up in the side table. -/
def sideGet (t : SideTable) (k : String × Nat) : Option Nat :=
  (t.find? (fun p => p.1 == k)).map (fun p => p.2)

/-- Modelled from the spec: `Interpreter::resolve`, the side-table insert that
`Resolver::resolve_local` invokes as `self.interpreter.resolve(name, i)`.
The method is absent from the snapshot's `interpreter.rs`; the spec describes
it as recording `(node → i)` in the interpreter's side table, the node keyed
by token identity (lexeme + line). -/
def Interpreter.resolve (table : SideTable) (name : Token) (i : Nat) : SideTable :=
  sideInsert table (name.lexeme, name.line) i

/-- `Resolver::resolve_local` from `resolver.rs`: iterate over the scope
stack from innermost (`scopes.iter().rev().enumerate()`, depth 0 = innermost)
and — faithfully to the source, which has no early return — call
`Interpreter.resolve` for *every* scope containing the name.  The scope stack
is a `Vec`: the innermost scope is the last element. -/
def resolve_local (scopes : List Scope) (name : Token) (table : SideTable) : SideTable :=
  (scopes.reverse.enum).foldl
    (fun t is =>
      if scopeContains is.2 name.lexeme then Interpreter.resolve t name is.1 else t)
    table

/-- The call expression `clock()` (as the parser would produce for that
source text). -/
def clockCallExpr : Expr :=
  .Call (.Variable ⟨.Identifier, "clock", 1⟩) ⟨.RightParen, ")", 1⟩ []

/-- A three-cell environment chain for exercising depth-addressed access:
cell 0 is the root (`x ↦ "inG"`), cell 1 its child (`x ↦ "inP"`), cell 2 a
grandchild with no local bindings. -/
def chainStore : Store :=
  [ ⟨none, [("x", Object.Str "inG")]⟩,
    ⟨some 0, [("x", Object.Str "inP")]⟩,
    ⟨some 1, []⟩ ]

/-- `Interpreter::new` extended with one freshly allocated block environment
(cell 2, enclosing the current cell 1), the state in which
`execute_block(statements, cell 2)` is entered. -/
def c4State : InterpState :=
  { Interpreter.new with envs := Interpreter.new.envs ++ [⟨some 1, []⟩] }

/-- The token stream of `a or b and c ;`. -/
def c5Tokens : List Token :=
  [ ⟨.Identifier, "a", 1⟩, ⟨.Or, "or", 1⟩, ⟨.Identifier, "b", 1⟩,
    ⟨.And, "and", 1⟩, ⟨.Identifier, "c", 1⟩, ⟨.Semicolon, ";", 1⟩, ⟨.EOF, "", 1⟩ ]

/-- A scope stack in which both the outer scope (depth 1) and the innermost
scope (depth 0) contain a defined binding named `a` (the `Vec` order: the
innermost scope is last). -/
def c6Scopes : List Scope := [[("a", true)], [("a", true)]]

/-- A one-cell state with a variable `a` bound, for exercising assignment. -/
def c10State : InterpState :=
  { envs := [⟨none, [("a", Object.Str "old")]⟩], environment := 0, output := [] }

/-!
## Theorems settling the claims
-/

set_option maxRecDepth 100000 in
/-- C1: the claim says the S4 program (`var a = "global"; { fun showA() {
print a; } showA(); var a = "block"; showA(); }`) prints `global` on both
calls because variable references resolve to the scope in effect at function
definition.  In the source, the resolver is never run (`Lox::run` goes
lexer → parser → interpreter) and `visit_variable_expr` performs a dynamic
environment-chain lookup, so the second call sees the block's later
`var a = "block"`: the program prints `global` then `block`, refuting the
claim. -/
theorem c1_s4_prints_global_then_block :
    (∃ tokens, Lexer.scan s4Source = .ok tokens ∧ Parser.parse 100 tokens = .ok s4Program) ∧
    (interpret 100 Interpreter.new s4Program).1.output = ["global", "block"] ∧
    (["global", "block"] : List String) ≠ ["global", "global"] :=
  ⟨⟨_, rfl, rfl⟩, rfl, by decide⟩

/-- C2: the claim says a fresh interpreter's environment binds `clock`, so
`clock()` evaluates to a Number.  In the source, `Interpreter::new` builds a
`globals` environment containing `clock` and then drops it, storing a second
empty `Environment::new()` instead; `clock()` therefore fails with
`UndefinedError`.  The second conjunct shows the orphaned globals cell (index
0) did receive the `clock` binding. -/
theorem c2_clock_call_is_undefined :
    evaluate 10 Interpreter.new clockCallExpr =
      (Interpreter.new,
        .error (.UndefinedError ⟨.Identifier, "clock", 1⟩ "Undefined variable clock.")) ∧
    (mapGet (Interpreter.new.envs.deref 0).values "clock").isSome = true :=
  ⟨rfl, rfl⟩

/-- C3: the claim says `get_at d` reads, and `assign_at d` writes, the
environment exactly `d` enclosing links up.  In the source,
`Environment::ancestor`'s loop re-reads `self.enclosing` every iteration and
never advances, so every distance `d ≥ 1` addresses the immediate parent: on
the chain cell2 → cell1 → cell0 with `x` bound in both cell0 (`"inG"`) and
cell1 (`"inP"`), `get_at 2` from cell 2 returns cell 1's `"inP"` instead of
the grandparent's `"inG"`, and `assign_at 2` writes cell 1. -/
theorem c3_get_at_stops_at_parent :
    Environment.get_at chainStore 2 2 ⟨.Identifier, "x", 1⟩ = .ok (Object.Str "inP") ∧
    Environment.assign_at chainStore 2 2 ⟨.Identifier, "x", 1⟩ (Object.Str "w") =
      .ok [ ⟨none, [("x", Object.Str "inG")]⟩,
            ⟨some 0, [("x", Object.Str "w")]⟩,
            ⟨some 1, []⟩ ] :=
  ⟨rfl, rfl⟩

/-- C4: the claim says `execute_block` restores the previous environment on
every exit path, including error and `Return`.  In the source the loop body is
`self.execute(stmt)?`, so an error path returns before the restore: executing
a block consisting of a bare `return;` from `c4State` (current environment 1,
block environment 2) leaves the interpreter's environment field at 2. -/
theorem c4_execute_block_skips_restore_on_error :
    (executeBlock 10 c4State [Stmt.Return ⟨.Return, "return", 1⟩ none] 2).2 =
      .error (.Return Object.Nil) ∧
    (executeBlock 10 c4State [Stmt.Return ⟨.Return, "return", 1⟩ none] 2).1.environment = 2 ∧
    c4State.environment = 1 :=
  ⟨rfl, rfl, rfl⟩

/-- C5: the claim says `a or b and c ;` parses into
`Logical(a, or, Logical(b, and, c))` because logical-and binds tighter than
logical-or.  In the source, `Parser::or` parses the right operand with
`equality()` — skipping the logical-and level — so after `a or b` the `and c`
tokens remain and the statement fails to parse: the parser reports an
unexpected `and` where `;` was expected. -/
theorem c5_or_right_operand_skips_and_level :
    Parser.parse 20 c5Tokens =
      .error (.UnexpectedToken ⟨.And, "and", 1⟩ "Expect ; after value.") :=
  rfl

/-- C6: the claim says `resolve_local` records exactly the innermost (depth 0)
hit.  In the source the scope loop has no early return, so every containing
scope is recorded and the last (outermost) insert wins: with `a` present in
the scopes at depths 0 and 1, the side table maps the reference to distance 1,
not 0. -/
theorem c6_resolve_local_records_outermost_hit :
    resolve_local c6Scopes ⟨.Identifier, "a", 1⟩ [] = [(("a", 1), 1)] ∧
    sideGet (resolve_local c6Scopes ⟨.Identifier, "a", 1⟩ []) ("a", 1) = some 1 :=
  ⟨rfl, rfl⟩

/-- C7: the claim says every identifier-shaped lexeme, including those
starting with `o`, scans to a single keyword or `Identifier` token.  In the
source the `'o'` match arm precedes the identifier arm: `old` loses its `o`
entirely (scanning to `Identifier "ld"`), and `orchid` scans to the keyword
`Or` followed by `Identifier "chid"`. -/
theorem c7_o_prefixed_identifiers_mangled :
    Lexer.scan "old" = .ok [⟨.Identifier, "ld", 1⟩, ⟨.EOF, "", 1⟩] ∧
    Lexer.scan "orchid" = .ok [⟨.Or, "or", 1⟩, ⟨.Identifier, "chid", 1⟩, ⟨.EOF, "", 1⟩] :=
  ⟨rfl, rfl⟩

/-- C8: logical operators short-circuit exactly as claimed: once the left
operand of `Logical(left, op, right)` evaluates to `v` (state `s₁`), the whole
expression returns `v` with state `s₁` — never touching `right` — precisely
when `op` is `or` with `v` truthy or `op` is `and` with `v` falsy; otherwise
the expression's outcome is exactly the evaluation of `right` from `s₁`. -/
theorem c8_logical_short_circuit (fuel : Nat) (s s₁ : InterpState)
    (left right : Expr) (operator : Token) (v : Object)
    (h : evaluate fuel s left = (s₁, .ok v)) :
    evaluate (fuel + 1) s (.Logical left operator right) =
      if (operator.type = .Or ∧ is_truthy v) ∨ (operator.type = .And ∧ ¬ is_truthy v)
      then (s₁, .ok v)
      else evaluate fuel s₁ right := by
  have hstep : evaluate (fuel + 1) s (.Logical left operator right) =
      (match evaluate fuel s left with
       | (s₂, .error err) => (s₂, .error err)
       | (s₂, .ok lv) =>
         if operator.type = .Or ∧ is_truthy lv then (s₂, .ok lv)
         else if operator.type = .And ∧ ¬ is_truthy lv then (s₂, .ok lv)
         else evaluate fuel s₂ right) := by
    simp only [evaluate]
  rw [hstep, h]
  by_cases h₁ : operator.type = .Or ∧ is_truthy v
  · simp [h₁]
  · by_cases h₂ : operator.type = .And ∧ ¬ is_truthy v
    · simp [h₁, h₂]
    · simp [h₁, h₂]

/-- Witness for C8 at a concrete input: `true or "side"` in a fresh
interpreter short-circuits to `true` without evaluating the right operand. -/
theorem c8_witness :
    evaluate 2 Interpreter.new
      (.Logical (.Literal (.Boolean true)) ⟨.Or, "or", 1⟩ (.Literal (.Str "side"))) =
      (Interpreter.new, .ok (Object.Boolean true)) := by
  have h := c8_logical_short_circuit 1 Interpreter.new Interpreter.new
    (.Literal (.Boolean true)) (.Literal (.Str "side")) ⟨.Or, "or", 1⟩
    (Object.Boolean true) rfl
  simpa [is_truthy] using h

/-- C9: the claim says a digit run followed by a dot with no digit after
leaves the dot for the next token, so `123.` scans to `Number`, `Dot`, `EOF`.
In the source the number arm consumes the dot before checking for a following
digit and discards it when none follows: `123.` scans to `Number 123`, `EOF`
with no `Dot` token. -/
theorem c9_trailing_dot_is_discarded :
    Lexer.scan "123." = .ok [⟨.Number (parseNum "123"), "123", 1⟩, ⟨.EOF, "", 1⟩] ∧
    parseNum "123" = 123 := by
  refine ⟨rfl, ?_⟩
  have h : parseNum "123" = ((123 : Nat) : ℚ) := rfl
  rw [h]; norm_num

/-- C10: an assignment expression evaluates to the assigned value: if the
right-hand side evaluates to `v` (state `s₁`) and the assignment into the
environment chain succeeds (producing store `st`), then the whole
`Assign(name, value)` expression yields `v`. -/
theorem c10_assign_evaluates_to_assigned_value (fuel : Nat) (s s₁ : InterpState)
    (name : Token) (value : Expr) (v : Object) (st : Store)
    (h : evaluate fuel s value = (s₁, .ok v))
    (ha : envAssign s₁.envs (s₁.envs.length + 1) s₁.environment name v = .ok st) :
    evaluate (fuel + 1) s (.Assign name value) = ({ s₁ with envs := st }, .ok v) := by
  have hstep : evaluate (fuel + 1) s (.Assign name value) =
      (match evaluate fuel s value with
       | (s₂, .error err) => (s₂, .error err)
       | (s₂, .ok w) =>
         match envAssign s₂.envs (s₂.envs.length + 1) s₂.environment name w with
         | .ok st' => ({ s₂ with envs := st' }, .ok w)
         | .error err => (s₂, .error err)) := by
    simp only [evaluate]
  rw [hstep, h]
  simp [ha]

/-- Witness for C10 at a concrete input: after `var a` holds `"old"`,
evaluating `a = "new"` yields `"new"` (and updates the binding). -/
theorem c10_witness :
    evaluate 2 c10State (.Assign ⟨.Identifier, "a", 1⟩ (.Literal (.Str "new"))) =
      ({ c10State with envs := [⟨none, [("a", Object.Str "new")]⟩] }, .ok (Object.Str "new")) := by
  exact c10_assign_evaluates_to_assigned_value 1 c10State c10State ⟨.Identifier, "a", 1⟩
    (.Literal (.Str "new")) (Object.Str "new") [⟨none, [("a", Object.Str "new")]⟩] rfl rfl

end Lox
